import Mathlib

/-!
Verification development for the push-to-k8s secret-synchronization controller
(package pkg/k8s, file secret.go). The Go functions are shallowly embedded as
Lean functions over an explicit cluster-store state; the Kubernetes API server
behavior the code runs against (optimistic concurrency, not-found errors,
server-assigned identity on create) is modelled by the store operations.
-/

namespace PushToK8s

/-! ## Go maps

A Go `map[string]string` (or `map[string][]byte`, with byte slices rendered as
strings, matching how the code compares them via the string conversion) is
either nil or a list of key-value entries with pairwise distinct keys. The nil
versus empty distinction matters because the code tests `ns.Labels != nil`.
-/

abbrev GoMap := Option (List (String × String))

def entriesOf (m : GoMap) : List (String × String) := m.getD []

/-- Go `len(m)`; the length of a nil map is 0. -/
def mapLen (m : GoMap) : Nat := (entriesOf m).length

/-- Go map indexing `m[k]`; first matching entry. -/
def mapLookup (m : GoMap) (k : String) : Option String := (entriesOf m).lookup k

/-- Go `_, exists := m[k]` key-existence test. -/
def mapHasKey (m : GoMap) (k : String) : Bool := (mapLookup m k).isSome

/-- Go `delete(m, k)`; a no-op on a nil map. -/
def mapDelete (m : GoMap) (k : String) : GoMap :=
  m.map (fun l => l.filter (fun e => e.1 != k))

/-- Well-formedness of a Go map model: keys are pairwise distinct. -/
def nodupKeys (m : GoMap) : Prop := ((entriesOf m).map Prod.fst).Nodup

instance (m : GoMap) : Decidable (nodupKeys m) := by
  unfold nodupKeys; infer_instance

/-! ## Data model -/

/-- A v1.Secret, restricted to the fields the code reads or writes. -/
structure Secret where
  name : String
  nsp : String
  uid : String
  resourceVersion : String
  creationTimestamp : String
  generation : Nat
  managedFields : List String
  labels : GoMap
  annotations : GoMap
  secretType : String
  data : GoMap
  stringData : GoMap
deriving DecidableEq, Repr

/-- A v1.Namespace: name and labels. -/
structure NamespaceObj where
  name : String
  labels : GoMap
deriving DecidableEq, Repr

/-- The cluster store together with injected transient API failures.
`nsGetFails` lists namespaces whose Get call fails transiently, `deleteFaults`
injects a failure message for a (namespace, secret-name) delete, and the two
list flags make the List calls fail. -/
structure Store where
  namespaces : List NamespaceObj
  secrets : List Secret
  nsGetFails : List String
  nsListFails : Bool
  secretListFails : Bool
  deleteFaults : List ((String × String) × String)
  uidCounter : Nat
deriving DecidableEq, Repr

/-- A write request issued against the store (whether or not it succeeds). -/
inductive ApiCall where
  | create (nsp : String) (payload : Secret)
  | update (nsp : String) (payload : Secret)
  | delete (nsp : String) (name : String)
deriving DecidableEq, Repr

def ApiCall.target : ApiCall → String
  | .create n _ => n
  | .update n _ => n
  | .delete n _ => n

def ApiCall.payloadOf : ApiCall → Option Secret
  | .create _ p => some p
  | .update _ p => some p
  | .delete _ _ => none

/-! ## Model of the Kubernetes API server

These definitions model the store the code talks to, not code of the
repository: Get of an absent object fails with a message containing
"not found"; Create assigns fresh identity metadata; Update enforces the
optimistic-concurrency preconditions (an object UID in the payload that
differs from the stored UID is rejected, as is a stale resource version);
Delete of an absent object fails with a not-found message.
-/

def nsGet (st : Store) (name : String) : Except String NamespaceObj :=
  if st.nsGetFails.contains name then
    .error ("transient failure getting namespace " ++ name)
  else
    match st.namespaces.find? (fun n => n.name == name) with
    | some n => .ok n
    | none => .error ("namespaces " ++ name ++ " not found")

def nsList (st : Store) : Except String (List NamespaceObj) :=
  if st.nsListFails then .error "failed to list namespaces" else .ok st.namespaces

def secretList (st : Store) (nsp selKey selVal : String) : Except String (List Secret) :=
  if st.secretListFails then .error "failed to list secrets" else
    .ok (st.secrets.filter (fun s => s.nsp == nsp && mapLookup s.labels selKey == some selVal))

def secretGet (st : Store) (nsp name : String) : Except String Secret :=
  match st.secrets.find? (fun s => s.nsp == nsp && s.name == name) with
  | some s => .ok s
  | none => .error ("secrets " ++ name ++ " not found")

def secretCreate (st : Store) (nsp : String) (payload : Secret) : Store × Except String Secret :=
  if st.secrets.any (fun s => s.nsp == nsp && s.name == payload.name) then
    (st, .error ("secrets " ++ payload.name ++ " already exists"))
  else
    let stored : Secret :=
      { payload with
        nsp := nsp
        uid := "sys-uid-" ++ toString st.uidCounter
        resourceVersion := "1"
        creationTimestamp := "sys-time"
        generation := 1
        managedFields := ["sys-managed"] }
    ({ st with secrets := st.secrets ++ [stored], uidCounter := st.uidCounter + 1 }, .ok stored)

def secretUpdate (st : Store) (nsp : String) (payload : Secret) : Store × Except String Secret :=
  match st.secrets.find? (fun s => s.nsp == nsp && s.name == payload.name) with
  | none => (st, .error ("secrets " ++ payload.name ++ " not found"))
  | some stored =>
    if payload.uid != "" && payload.uid != stored.uid then
      (st, .error ("Precondition failed: UID in precondition " ++ stored.uid ++
        " does not match object UID " ++ payload.uid))
    else if payload.resourceVersion != "" && payload.resourceVersion != stored.resourceVersion then
      (st, .error "Operation cannot be fulfilled: the object has been modified")
    else
      let newStored : Secret :=
        { payload with
          nsp := nsp
          uid := stored.uid
          creationTimestamp := stored.creationTimestamp }
      ({ st with
          secrets := st.secrets.map (fun s =>
            if s.nsp == nsp && s.name == payload.name then newStored else s) },
        .ok newStored)

def secretDelete (st : Store) (nsp name : String) : Store × Except String Unit :=
  match st.deleteFaults.lookup (nsp, name) with
  | some msg => (st, .error msg)
  | none =>
    if st.secrets.any (fun s => s.nsp == nsp && s.name == name) then
      ({ st with secrets := st.secrets.filter (fun s => !(s.nsp == nsp && s.name == name)) },
        .ok ())
    else
      (st, .error ("secrets " ++ name ++ " not found"))

/-! ## Embedded functions from pkg/k8s/secret.go -/

/-- Go `equalByteMaps` (secret.go lines 118-129): length check, then every
entry of `a` must be present in `b` with the same (stringified) value. -/
def equalByteMaps (a b : GoMap) : Bool :=
  mapLen a == mapLen b &&
    (entriesOf a).all (fun e =>
      match mapLookup b e.1 with
      | some valB => e.2 == valB
      | none => false)

/-- Go `equalStringMaps` (secret.go lines 132-143): same logic as
`equalByteMaps` on string-valued maps. -/
def equalStringMaps (a b : GoMap) : Bool :=
  mapLen a == mapLen b &&
    (entriesOf a).all (fun e =>
      match mapLookup b e.1 with
      | some valB => e.2 == valB
      | none => false)

/-- Go `compareSecrets` (secret.go lines 103-115). -/
def compareSecrets (existingSecret sourceSecret : Secret) : Bool :=
  equalByteMaps existingSecret.data sourceSecret.data &&
    equalStringMaps existingSecret.stringData sourceSecret.stringData

/-- Go `getSourceSecrets` (secret.go lines 19-36): list secrets in the source
namespace with label selector push-to-k8s=source; an empty result is returned
as an empty list with no error. -/
def getSourceSecrets (st : Store) (sourceNamespace : String) : Except String (List Secret) :=
  match secretList st sourceNamespace "push-to-k8s" "source" with
  | .error e =>
      .error ("failed to list secrets in namespace " ++ sourceNamespace ++
        " with label push-to-k8s=source: " ++ e)
  | .ok items => .ok items

/-- The exclude-label guard at the top of `syncSecretToNamespace` (secret.go
lines 41-51): the namespace is skipped only when the label key is non-empty,
the namespace Get succeeds, its labels are non-nil, and the key exists. -/
def skipExcluded (st : Store) (nsp excludeNamespaceLabel : String) : Bool :=
  if excludeNamespaceLabel != "" then
    match nsGet st nsp with
    | .ok nsObj =>
      match nsObj.labels with
      | some ls => (ls.lookup excludeNamespaceLabel).isSome
      | none => false
    | .error _ => false
  else false

deriving instance DecidableEq for Except

/-- Result of one embedded call: the store afterwards, the write requests
issued (in order), and the returned error value. -/
structure SyncResult where
  store : Store
  calls : List ApiCall
  result : Except String Unit
deriving DecidableEq, Repr

/-- Go `syncSecretToNamespace` (secret.go lines 39-100). Both the update and
the create branch build the payload as a deep copy of the source secret,
overwriting only Namespace, ResourceVersion and (when non-nil) removing the
push-to-k8s label. -/
def syncSecretToNamespace (st : Store) (sourceSecret : Secret)
    (nsp excludeNamespaceLabel : String) : SyncResult :=
  if skipExcluded st nsp excludeNamespaceLabel then ⟨st, [], .ok ()⟩
  else
    match secretGet st nsp sourceSecret.name with
    | .ok existingSecret =>
      if compareSecrets existingSecret sourceSecret then ⟨st, [], .ok ()⟩
      else
        let sourceSecretCopy : Secret :=
          { sourceSecret with
            nsp := nsp
            resourceVersion := existingSecret.resourceVersion
            labels := mapDelete sourceSecret.labels "push-to-k8s" }
        match secretUpdate st nsp sourceSecretCopy with
        | (st2, .ok _) => ⟨st2, [.update nsp sourceSecretCopy], .ok ()⟩
        | (st2, .error e) =>
          ⟨st2, [.update nsp sourceSecretCopy],
            .error ("failed to update secret " ++ sourceSecret.name ++
              " in namespace " ++ nsp ++ ": " ++ e)⟩
    | .error _ =>
      let sourceSecretCopy : Secret :=
        { sourceSecret with
          nsp := nsp
          resourceVersion := ""
          labels := mapDelete sourceSecret.labels "push-to-k8s" }
      match secretCreate st nsp sourceSecretCopy with
      | (st2, .ok _) => ⟨st2, [.create nsp sourceSecretCopy], .ok ()⟩
      | (st2, .error e) =>
        ⟨st2, [.create nsp sourceSecretCopy],
          .error ("failed to create secret " ++ sourceSecret.name ++
            " in namespace " ++ nsp ++ ": " ++ e)⟩

/-- The namespace guard shared by the fan-out loops (secret.go lines 185-194,
296-305, 328-337): skip the source namespace, and skip namespaces whose
non-nil listed labels contain the exclude key. -/
def loopSkips (nsObj : NamespaceObj) (sourceNamespace excl : String) : Bool :=
  nsObj.name == sourceNamespace ||
    (excl != "" &&
      (match nsObj.labels with
        | some ls => (ls.lookup excl).isSome
        | none => false))

/-- The inner namespace loop of `SyncSecrets` (secret.go lines 184-201) and the
loop of `syncSingleSecretToAllNamespaces` (lines 295-312): per-namespace
errors are logged and the loop continues. -/
def syncSecretsLoopNs (st : Store) (secret : Secret) (sourceNamespace excl : String) :
    List NamespaceObj → Store × List ApiCall
  | [] => (st, [])
  | nsObj :: rest =>
    if loopSkips nsObj sourceNamespace excl then
      syncSecretsLoopNs st secret sourceNamespace excl rest
    else
      let r := syncSecretToNamespace st secret nsObj.name excl
      let (st2, calls2) := syncSecretsLoopNs r.store secret sourceNamespace excl rest
      (st2, r.calls ++ calls2)

/-- The outer secret loop of `SyncSecrets` (secret.go lines 183-202). -/
def syncSecretsLoopSecrets (st : Store) (sourceNamespace excl : String)
    (nss : List NamespaceObj) : List Secret → Store × List ApiCall
  | [] => (st, [])
  | sec :: rest =>
    let (st1, c1) := syncSecretsLoopNs st sec sourceNamespace excl nss
    let (st2, c2) := syncSecretsLoopSecrets st1 sourceNamespace excl nss rest
    (st2, c1 ++ c2)

/-- Go `SyncSecrets` (secret.go lines 167-204). -/
def SyncSecrets (st : Store) (sourceNamespace excl : String) : SyncResult :=
  match getSourceSecrets st sourceNamespace with
  | .error e => ⟨st, [], .error e⟩
  | .ok sourceSecrets =>
    match nsList st with
    | .error e => ⟨st, [], .error e⟩
    | .ok nss =>
      ⟨(syncSecretsLoopSecrets st sourceNamespace excl nss sourceSecrets).1,
       (syncSecretsLoopSecrets st sourceNamespace excl nss sourceSecrets).2, .ok ()⟩

/-- Go `syncSingleSecretToAllNamespaces` (secret.go lines 285-314). -/
def syncSingleSecretToAllNamespaces (st : Store) (secret : Secret)
    (sourceNamespace excl : String) : SyncResult :=
  match nsList st with
  | .error e => ⟨st, [], .error ("failed to list namespaces: " ++ e)⟩
  | .ok nss =>
    ⟨(syncSecretsLoopNs st secret sourceNamespace excl nss).1,
     (syncSecretsLoopNs st secret sourceNamespace excl nss).2, .ok ()⟩

/-- The secret loop of `syncSecretsToSingleNamespace` (secret.go lines
155-161): per-secret errors are logged and the loop continues. -/
def syncToSingleLoop (st : Store) (targetNamespace excl : String) :
    List Secret → Store × List ApiCall
  | [] => (st, [])
  | sec :: rest =>
    let r := syncSecretToNamespace st sec targetNamespace excl
    let (st2, calls2) := syncToSingleLoop r.store targetNamespace excl rest
    (st2, r.calls ++ calls2)

/-- Go `syncSecretsToSingleNamespace` (secret.go lines 147-163). -/
def syncSecretsToSingleNamespace (st : Store) (sourceNamespace targetNamespace excl : String) :
    SyncResult :=
  match getSourceSecrets st sourceNamespace with
  | .error e => ⟨st, [], .error e⟩
  | .ok sourceSecrets =>
    ⟨(syncToSingleLoop st targetNamespace excl sourceSecrets).1,
     (syncToSingleLoop st targetNamespace excl sourceSecrets).2, .ok ()⟩

/-- The body of the namespace-informer AddFunc in `WatchNamespaces` (secret.go
lines 221-250): skip the source namespace and namespaces whose event labels
contain the exclude key, otherwise run the targeted single-namespace sync. -/
def watchNamespacesAddFunc (st : Store) (evNs : NamespaceObj)
    (sourceNamespace excl : String) : SyncResult :=
  if evNs.name == sourceNamespace then ⟨st, [], .ok ()⟩
  else if excl != "" &&
      (match evNs.labels with
        | some ls => (ls.lookup excl).isSome
        | none => false) then ⟨st, [], .ok ()⟩
  else syncSecretsToSingleNamespace st sourceNamespace evNs.name excl

/-- Go `findSubstring` (secret.go lines 369-376), on the character sequence of
the strings. -/
def findSubstring (s substr : String) : Bool :=
  (List.range (s.toList.length - substr.toList.length + 1)).any fun i =>
    ((s.toList.drop i).take substr.toList.length) == substr.toList

/-- Go `contains` (secret.go lines 365-367). -/
def contains (s substr : String) : Bool :=
  s.toList.length ≥ substr.toList.length &&
    (s == substr || (s.toList.length > substr.toList.length && findSubstring s substr))

/-- Go `isNotFoundError` (secret.go lines 356-362); `none` models a nil error. -/
def isNotFoundError : Option String → Bool
  | none => false
  | some msg => msg != "" && (msg == "not found" || contains msg "not found")

/-- Result of the delete fan-out: store, delete requests issued, warnings
logged for failures not classified as not-found, and the returned error. -/
structure DeleteResult where
  store : Store
  calls : List ApiCall
  warnings : List (String × String)
  result : Except String Unit
deriving DecidableEq, Repr

/-- The namespace loop of `deleteSingleSecretFromAllNamespaces` (secret.go
lines 327-351): per-namespace delete errors are only logged (
and only when not classified not-found); nothing propagates. -/
def deleteLoop (st : Store) (secretName sourceNamespace excl : String) :
    List NamespaceObj → Store × List ApiCall × List (String × String)
  | [] => (st, [], [])
  | nsObj :: rest =>
    if loopSkips nsObj sourceNamespace excl then
      deleteLoop st secretName sourceNamespace excl rest
    else
      let (st1, r) := secretDelete st nsObj.name secretName
      let warn : List (String × String) :=
        match r with
        | .ok _ => []
        | .error e => if isNotFoundError (some e) then [] else [(nsObj.name, e)]
      let (st2, calls2, warns2) := deleteLoop st1 secretName sourceNamespace excl rest
      (st2, .delete nsObj.name secretName :: calls2, warn ++ warns2)

/-- Go `deleteSingleSecretFromAllNamespaces` (secret.go lines 317-353). -/
def deleteSingleSecretFromAllNamespaces (st : Store)
    (secretName sourceNamespace excl : String) : DeleteResult :=
  match nsList st with
  | .error e => ⟨st, [], [], .error ("failed to list namespaces: " ++ e)⟩
  | .ok nss =>
    ⟨(deleteLoop st secretName sourceNamespace excl nss).1,
     (deleteLoop st secretName sourceNamespace excl nss).2.1,
     (deleteLoop st secretName sourceNamespace excl nss).2.2, .ok ()⟩

/-! ## Debounced secret event queue (secret.go lines 276-459) -/

/-- Go `SecretEvent` (secret.go lines 277-281); a nil secret pointer is
modelled as `none`. -/
structure SecretEvent where
  eventType : String
  secret : Option Secret
  name : String
deriving DecidableEq, Repr

/-- The pending-map key an event is filed under by the event branch (secret.go
lines 432-437): delete events under `Name`, others under `Secret.Name` when
the secret is non-nil, and events with a nil secret are dropped. -/
def eventKey (e : SecretEvent) : Option String :=
  if e.eventType == "delete" then some e.name
  else
    match e.secret with
    | some sec => some sec.name
    | none => none

/-- One observable fan-out dispatched by the batch processor. -/
inductive BatchAction where
  | syncAll (name : String)
  | deleteAll (name : String)
deriving DecidableEq, Repr

def BatchAction.nameOf : BatchAction → String
  | .syncAll n => n
  | .deleteAll n => n

/-- The body of the `processBatch` closure (secret.go lines 386-418) over the
entries of the pending map: each item first calls `rateLimiter.Wait(ctx)`,
which fails immediately when the context is cancelled, in which case the item
is skipped; otherwise add/update events with a non-nil secret fan out a sync
and delete events fan out a delete. -/
def processBatchLoop (cancelled : Bool) (st : Store) (sourceNamespace excl : String) :
    List (String × SecretEvent) → Store × List BatchAction × List ApiCall
  | [] => (st, [], [])
  | (_, ev) :: rest =>
    if cancelled then processBatchLoop cancelled st sourceNamespace excl rest
    else if ev.eventType == "add" || ev.eventType == "update" then
      match ev.secret with
      | some sec =>
        let r := syncSingleSecretToAllNamespaces st sec sourceNamespace excl
        let rest2 := processBatchLoop cancelled r.store sourceNamespace excl rest
        (rest2.1, .syncAll sec.name :: rest2.2.1, r.calls ++ rest2.2.2)
      | none => processBatchLoop cancelled st sourceNamespace excl rest
    else if ev.eventType == "delete" then
      let r := deleteSingleSecretFromAllNamespaces st ev.name sourceNamespace excl
      let rest2 := processBatchLoop cancelled r.store sourceNamespace excl rest
      (rest2.1, .deleteAll ev.name :: rest2.2.1, r.calls ++ rest2.2.2)
    else processBatchLoop cancelled st sourceNamespace excl rest

/-- State of the debounce loop: whether the `timer` variable is non-nil, and
the pending map (modelled as an association list with distinct keys). -/
structure DebounceState where
  timerArmed : Bool
  pendingEvents : List (String × SecretEvent)
deriving DecidableEq, Repr

/-- Insertion into the pending map: overwrites any entry with the same key. -/
def pendingInsert (p : List (String × SecretEvent)) (k : String) (e : SecretEvent) :
    List (String × SecretEvent) :=
  p.filter (fun q => q.1 != k) ++ [(k, e)]

/-- The event branch of the debounce loop (secret.go lines 431-437). -/
def recordEvent (p : List (String × SecretEvent)) (e : SecretEvent) :
    List (String × SecretEvent) :=
  match eventKey e with
  | some k => pendingInsert p k e
  | none => p

def recordEvents (p : List (String × SecretEvent)) (es : List SecretEvent) :
    List (String × SecretEvent) :=
  es.foldl recordEvent p

/-- The three ways one iteration of the select in
`processDebouncedSecretQueue` can be resolved. -/
inductive DebounceInput where
  | ctxDone
  | ev (e : SecretEvent)
  | timerFires
deriving DecidableEq, Repr

/-- One iteration of the select loop in `processDebouncedSecretQueue`
(secret.go lines 420-458). Entering the select evaluates `timer.C`; when the
`timer` variable is nil (the unarmed state, as at startup and after a batch),
this dereferences a nil pointer and the loop faults, modelled as `none`. On a
successful iteration, the outcome is the next state (or `none` inside `some`
when the loop returned), the store, the dispatched fan-outs and the write
requests. The context-done branch runs `processBatch` against the cancelled
context; the timer branch runs it against the given context state. -/
def stepDebounce (st : Store) (s : DebounceState) (sourceNamespace excl : String)
    (cancelled : Bool) :
    DebounceInput → Option (Option DebounceState × Store × List BatchAction × List ApiCall)
  | inp =>
    if s.timerArmed = false then none
    else
      match inp with
      | .ctxDone =>
        let r := processBatchLoop true st sourceNamespace excl s.pendingEvents
        some (none, r.1, r.2.1, r.2.2)
      | .ev e =>
        some (some ⟨true, recordEvent s.pendingEvents e⟩, st, [], [])
      | .timerFires =>
        let r := processBatchLoop cancelled st sourceNamespace excl s.pendingEvents
        some (some ⟨false, []⟩, r.1, r.2.1, r.2.2)

/-- Iterated `stepDebounce` over a list of select resolutions, accumulating
fan-outs and write requests; a fault at any iteration faults the run. -/
def runDebounce (st : Store) (s : DebounceState) (sourceNamespace excl : String)
    (cancelled : Bool) :
    List DebounceInput → Option (Option DebounceState × Store × List BatchAction × List ApiCall)
  | [] => some (some s, st, [], [])
  | inp :: rest =>
    match stepDebounce st s sourceNamespace excl cancelled inp with
    | none => none
    | some (none, st2, acts, calls) => some (none, st2, acts, calls)
    | some (some s2, st2, acts, calls) =>
      match runDebounce st2 s2 sourceNamespace excl cancelled rest with
      | none => none
      | some (out, st3, acts2, calls2) => some (out, st3, acts ++ acts2, calls ++ calls2)

/-! ## Specification-side predicate -/

/-- Modelled from the spec, section 4.1 NamespaceFilter: a namespace is
eligible unless its name is the source namespace name, or the exclude label
key is non-empty and the namespace labels contain that key (existence, not
value). Stated from the spec wording for comparison with the code paths. -/
def eligibleSpec (nsObj : NamespaceObj) (sourceNamespaceName excludeLabelKey : String) : Bool :=
  !(nsObj.name == sourceNamespaceName) &&
    !(excludeLabelKey != "" && mapHasKey nsObj.labels excludeLabelKey)

/-! ## Helper lemmas: association-list lookup and map equality -/

theorem lookup_cons_eq {β : Type} (a k : String) (v : β) (es : List (String × β)) :
    List.lookup a ((k, v) :: es) = if a == k then some v else List.lookup a es := by
  rcases h : a == k <;> simp [List.lookup, h]

theorem lookup_isSome_iff_mem {β : Type} (l : List (String × β)) (k : String) :
    (List.lookup k l).isSome = true ↔ k ∈ l.map Prod.fst := by
  induction l with
  | nil => simp
  | cons e t ih =>
    obtain ⟨a, v⟩ := e
    rw [lookup_cons_eq]
    by_cases hk : k = a
    · subst hk; simp
    · simp only [List.map_cons, List.mem_cons]
      rw [if_neg (by simpa using hk)]
      simp only [hk, false_or]
      exact ih

theorem lookup_eq_of_mem_nodup {β : Type} {l : List (String × β)} {k : String} {v : β}
    (hn : (l.map Prod.fst).Nodup) (hm : (k, v) ∈ l) : List.lookup k l = some v := by
  induction l with
  | nil => simp at hm
  | cons e t ih =>
    obtain ⟨a, w⟩ := e
    rw [lookup_cons_eq]
    rcases List.mem_cons.mp hm with h | h
    · obtain ⟨h1, h2⟩ := Prod.mk.injEq .. ▸ h
      subst h1; subst h2; simp
    · have hka : k ≠ a := by
        intro hk; subst hk
        have : k ∈ t.map Prod.fst := List.mem_map.mpr ⟨(k, v), h, rfl⟩
        exact (List.nodup_cons.mp (by simpa using hn)).1 this
      rw [if_neg (by simpa using hka)]
      exact ih (List.nodup_cons.mp (by simpa using hn)).2 h

theorem lookup_append_sentinel {β : Type} (l : List (String × β)) (k : String) (v : β)
    (h : ∀ e ∈ l, e.1 ≠ k) : List.lookup k (l ++ [(k, v)]) = some v := by
  induction l with
  | nil => simp [lookup_cons_eq]
  | cons e t ih =>
    obtain ⟨a, w⟩ := e
    rw [List.cons_append, lookup_cons_eq,
      if_neg (by simpa using (h (a, w) (by simp)).symm)]
    exact ih (fun e he => h e (by simp [he]))

theorem lookup_filter_ne_self {β : Type} (l : List (String × β)) (k : String) :
    List.lookup k (l.filter (fun e => e.1 != k)) = none := by
  induction l with
  | nil => simp
  | cons e t ih =>
    obtain ⟨a, w⟩ := e
    by_cases ha : a = k
    · subst ha; simpa using ih
    · rw [List.filter_cons_of_pos (by simpa using ha), lookup_cons_eq,
        if_neg (by simpa using fun he => ha he.symm)]
      exact ih

theorem mapLookup_mapDelete_self (m : GoMap) (k : String) :
    mapLookup (mapDelete m k) k = none := by
  cases m with
  | none => rfl
  | some l => simpa [mapLookup, mapDelete, entriesOf] using lookup_filter_ne_self l k

theorem equalStringMaps_eq_equalByteMaps : equalStringMaps = equalByteMaps := rfl

theorem equalByteMaps_of_lookup_eq {a b : GoMap} (ha : nodupKeys a) (hb : nodupKeys b)
    (h : ∀ k, mapLookup a k = mapLookup b k) : equalByteMaps a b = true := by
  have hperm : List.Perm ((entriesOf a).map Prod.fst) ((entriesOf b).map Prod.fst) := by
    refine (List.perm_ext_iff_of_nodup ha hb).mpr (fun k => ?_)
    rw [← lookup_isSome_iff_mem, ← lookup_isSome_iff_mem]
    show (mapLookup a k).isSome = true ↔ (mapLookup b k).isSome = true
    rw [h k]
  simp only [equalByteMaps, Bool.and_eq_true, beq_iff_eq, List.all_eq_true]
  constructor
  · show (entriesOf a).length = (entriesOf b).length
    have la := (List.length_map (entriesOf a) Prod.fst).symm
    have lb := (List.length_map (entriesOf b) Prod.fst).symm
    rw [la, lb, hperm.length_eq]
  · intro e he
    obtain ⟨k, v⟩ := e
    have hv : mapLookup a k = some v := lookup_eq_of_mem_nodup ha he
    have hv2 : mapLookup b k = some v := by rw [← h k]; exact hv
    simp [hv2]

theorem equalByteMaps_refl {a : GoMap} (ha : nodupKeys a) : equalByteMaps a a = true :=
  equalByteMaps_of_lookup_eq ha ha (fun _ => rfl)

theorem compareSecrets_of_lookup_eq {existingSecret sourceSecret : Secret}
    (h1 : nodupKeys existingSecret.data) (h2 : nodupKeys sourceSecret.data)
    (h3 : nodupKeys existingSecret.stringData) (h4 : nodupKeys sourceSecret.stringData)
    (hd : ∀ k, mapLookup existingSecret.data k = mapLookup sourceSecret.data k)
    (hs : ∀ k, mapLookup existingSecret.stringData k = mapLookup sourceSecret.stringData k) :
    compareSecrets existingSecret sourceSecret = true := by
  unfold compareSecrets
  rw [equalStringMaps_eq_equalByteMaps, equalByteMaps_of_lookup_eq h1 h2 hd,
    equalByteMaps_of_lookup_eq h3 h4 hs]
  rfl

/-! ## Helper lemmas: find? -/

theorem find?_cons_eq {α : Type} (p : α → Bool) (a : α) (l : List α) :
    (a :: l).find? p = if p a then some a else l.find? p := by
  rcases h : p a <;> simp [List.find?_cons, h]

theorem find?_append_of_none {α : Type} (p : α → Bool) (l₁ l₂ : List α)
    (h : l₁.find? p = none) : (l₁ ++ l₂).find? p = l₂.find? p := by
  induction l₁ with
  | nil => simp
  | cons a t ih =>
    rw [List.find?_eq_none] at h
    have ha : p a = false := by simpa using h a (by simp)
    have ht : t.find? p = none := List.find?_eq_none.mpr (fun x hx => h x (by simp [hx]))
    rw [List.cons_append, find?_cons_eq, if_neg (by simp [ha])]
    exact ih ht

theorem find?_map_replace {α : Type} (p : α → Bool) (new : α) (l : List α) (x : α)
    (hfind : l.find? p = some x) (hnew : p new = true) :
    (l.map (fun s => if p s then new else s)).find? p = some new := by
  induction l with
  | nil => simp at hfind
  | cons a t ih =>
    rcases ha : p a with hf | ht
    · rw [find?_cons_eq, if_neg (by simp [ha])] at hfind
      rw [List.map_cons, if_neg (by simp [ha]), find?_cons_eq, if_neg (by simp [ha])]
      exact ih hfind
    · rw [List.map_cons, if_pos (by simp [ha]), find?_cons_eq, if_pos (by simp [hnew])]

/-! ## Helper lemmas: store environment preservation -/

theorem secretCreate_namespaces (st : Store) (nsp : String) (p : Secret) :
    ((secretCreate st nsp p).1).namespaces = st.namespaces := by
  unfold secretCreate; split <;> rfl

theorem secretCreate_nsGetFails (st : Store) (nsp : String) (p : Secret) :
    ((secretCreate st nsp p).1).nsGetFails = st.nsGetFails := by
  unfold secretCreate; split <;> rfl

theorem secretUpdate_namespaces (st : Store) (nsp : String) (p : Secret) :
    ((secretUpdate st nsp p).1).namespaces = st.namespaces := by
  unfold secretUpdate; split
  · rfl
  · split
    · rfl
    · split <;> rfl

theorem secretUpdate_nsGetFails (st : Store) (nsp : String) (p : Secret) :
    ((secretUpdate st nsp p).1).nsGetFails = st.nsGetFails := by
  unfold secretUpdate; split
  · rfl
  · split
    · rfl
    · split <;> rfl

theorem skipExcluded_congr {st st' : Store} (h1 : st'.namespaces = st.namespaces)
    (h2 : st'.nsGetFails = st.nsGetFails) (nsp excl : String) :
    skipExcluded st' nsp excl = skipExcluded st nsp excl := by
  unfold skipExcluded nsGet; rw [h1, h2]

/-! ## Helper lemmas: write targets and marker labels -/

theorem syncSecretToNamespace_calls_target (st : Store) (sec : Secret) (nsp excl : String) :
    ∀ c ∈ (syncSecretToNamespace st sec nsp excl).calls, c.target = nsp := by
  unfold syncSecretToNamespace
  split
  · intro c hc; simp at hc
  · split
    · split
      · intro c hc; simp at hc
      · dsimp only; split <;> (intro c hc; simp at hc; subst hc; rfl)
    · dsimp only; split <;> (intro c hc; simp at hc; subst hc; rfl)

theorem syncSecretToNamespace_calls_marker (st : Store) (sec : Secret) (nsp excl : String) :
    ∀ c ∈ (syncSecretToNamespace st sec nsp excl).calls, ∀ p, c.payloadOf = some p →
      mapLookup p.labels "push-to-k8s" = none := by
  unfold syncSecretToNamespace
  split
  · intro c hc; simp at hc
  · split
    · split
      · intro c hc; simp at hc
      · dsimp only; split <;>
          (intro c hc p hp; simp at hc; subst hc;
           simp only [ApiCall.payloadOf, Option.some.injEq] at hp; subst hp;
           exact mapLookup_mapDelete_self sec.labels "push-to-k8s")
    · dsimp only; split <;>
        (intro c hc p hp; simp at hc; subst hc;
         simp only [ApiCall.payloadOf, Option.some.injEq] at hp; subst hp;
         exact mapLookup_mapDelete_self sec.labels "push-to-k8s")

theorem loopSkips_eq_not_eligibleSpec (nsObj : NamespaceObj) (src excl : String) :
    loopSkips nsObj src excl = !eligibleSpec nsObj src excl := by
  unfold loopSkips eligibleSpec mapHasKey mapLookup entriesOf
  cases h : nsObj.labels <;> simp [h]

theorem syncSecretsLoopNs_calls (sec : Secret) (src excl : String)
    (nss : List NamespaceObj) :
    ∀ st : Store, ∀ c ∈ (syncSecretsLoopNs st sec src excl nss).2,
      ∃ m ∈ nss, loopSkips m src excl = false ∧ c.target = m.name := by
  induction nss with
  | nil => intro st c hc; simp [syncSecretsLoopNs] at hc
  | cons nsObj rest ih =>
    intro st c hc
    unfold syncSecretsLoopNs at hc
    by_cases hskip : loopSkips nsObj src excl
    · rw [if_pos hskip] at hc
      obtain ⟨m, hm, h1, h2⟩ := ih st c hc
      exact ⟨m, by simp [hm], h1, h2⟩
    · rw [if_neg hskip] at hc
      simp only [List.mem_append] at hc
      rcases hc with hc | hc
      · exact ⟨nsObj, by simp, by simpa using hskip,
          syncSecretToNamespace_calls_target st sec nsObj.name excl c hc⟩
      · obtain ⟨m, hm, h1, h2⟩ :=
          ih (syncSecretToNamespace st sec nsObj.name excl).store c hc
        exact ⟨m, by simp [hm], h1, h2⟩

theorem syncSecretsLoopSecrets_calls (src excl : String) (nss : List NamespaceObj)
    (secs : List Secret) :
    ∀ st : Store, ∀ c ∈ (syncSecretsLoopSecrets st src excl nss secs).2,
      ∃ m ∈ nss, loopSkips m src excl = false ∧ c.target = m.name := by
  induction secs with
  | nil => intro st c hc; simp [syncSecretsLoopSecrets] at hc
  | cons sec rest ih =>
    intro st c hc
    unfold syncSecretsLoopSecrets at hc
    simp only [List.mem_append] at hc
    rcases hc with hc | hc
    · exact syncSecretsLoopNs_calls sec src excl nss st c hc
    · exact ih (syncSecretsLoopNs st sec src excl nss).1 c hc

theorem syncToSingleLoop_calls (target excl : String) (secs : List Secret) :
    ∀ st : Store, ∀ c ∈ (syncToSingleLoop st target excl secs).2, c.target = target := by
  induction secs with
  | nil => intro st c hc; simp [syncToSingleLoop] at hc
  | cons sec rest ih =>
    intro st c hc
    unfold syncToSingleLoop at hc
    simp only [List.mem_append] at hc
    rcases hc with hc | hc
    · exact syncSecretToNamespace_calls_target st sec target excl c hc
    · exact ih (syncSecretToNamespace st sec target excl).store c hc

theorem deleteLoop_calls (secretName src excl : String) (nss : List NamespaceObj) :
    ∀ st : Store, ∀ c ∈ (deleteLoop st secretName src excl nss).2.1,
      ∃ m ∈ nss, loopSkips m src excl = false ∧ c.target = m.name := by
  induction nss with
  | nil => intro st c hc; simp [deleteLoop] at hc
  | cons nsObj rest ih =>
    intro st c hc
    unfold deleteLoop at hc
    by_cases hskip : loopSkips nsObj src excl
    · rw [if_pos hskip] at hc
      obtain ⟨m, hm, h1, h2⟩ := ih st c hc
      exact ⟨m, by simp [hm], h1, h2⟩
    · rw [if_neg hskip] at hc
      simp only [List.mem_cons] at hc
      rcases hc with hc | hc
      · exact ⟨nsObj, by simp, by simpa using hskip, by rw [hc]; rfl⟩
      · obtain ⟨m, hm, h1, h2⟩ := ih (secretDelete st nsObj.name secretName).1 c hc
        exact ⟨m, by simp [hm], h1, h2⟩

theorem nsList_ok_inv {st : Store} {nss : List NamespaceObj} (h : nsList st = .ok nss) :
    nss = st.namespaces := by
  unfold nsList at h
  split at h
  · cases h
  · injection h with h2; exact h2.symm

theorem SyncSecrets_calls (st : Store) (src excl : String) :
    ∀ c ∈ (SyncSecrets st src excl).calls,
      ∃ m ∈ st.namespaces, loopSkips m src excl = false ∧ c.target = m.name := by
  unfold SyncSecrets
  split
  · intro c hc; simp at hc
  · next secs heqs =>
    split
    · intro c hc; simp at hc
    · next nss heq =>
      intro c hc
      have hnss := nsList_ok_inv heq
      subst hnss
      exact syncSecretsLoopSecrets_calls src excl _ secs st c hc

theorem syncSingleSecretToAllNamespaces_calls (st : Store) (sec : Secret) (src excl : String) :
    ∀ c ∈ (syncSingleSecretToAllNamespaces st sec src excl).calls,
      ∃ m ∈ st.namespaces, loopSkips m src excl = false ∧ c.target = m.name := by
  unfold syncSingleSecretToAllNamespaces
  split
  · intro c hc; simp at hc
  · next nss heq =>
    intro c hc
    have hnss := nsList_ok_inv heq
    subst hnss
    exact syncSecretsLoopNs_calls sec src excl _ st c hc

theorem syncSecretsToSingleNamespace_calls (st : Store) (src target excl : String) :
    ∀ c ∈ (syncSecretsToSingleNamespace st src target excl).calls, c.target = target := by
  unfold syncSecretsToSingleNamespace
  split
  · intro c hc; simp at hc
  · intro c hc
    exact syncToSingleLoop_calls target excl _ st c hc

theorem watchNamespacesAddFunc_calls (st : Store) (evNs : NamespaceObj) (src excl : String) :
    ∀ c ∈ (watchNamespacesAddFunc st evNs src excl).calls,
      loopSkips evNs src excl = false ∧ c.target = evNs.name := by
  unfold watchNamespacesAddFunc
  split
  · intro c hc; simp at hc
  · split
    · intro c hc; simp at hc
    · next h1 h2 =>
      intro c hc
      refine ⟨?_, syncSecretsToSingleNamespace_calls st src evNs.name excl c hc⟩
      unfold loopSkips
      simp only [Bool.or_eq_false_iff]
      exact ⟨by simpa using h1, by simpa using h2⟩

theorem deleteSingleSecretFromAllNamespaces_calls (st : Store) (secretName src excl : String) :
    ∀ c ∈ (deleteSingleSecretFromAllNamespaces st secretName src excl).calls,
      ∃ m ∈ st.namespaces, loopSkips m src excl = false ∧ c.target = m.name := by
  unfold deleteSingleSecretFromAllNamespaces
  split
  · intro c hc; simp at hc
  · next nss heq =>
    intro c hc
    have hnss := nsList_ok_inv heq
    subst hnss
    exact deleteLoop_calls secretName src excl _ st c hc

/-! ## Helper lemmas: marker label through the fan-out loops -/

theorem syncSecretsLoopNs_marker (sec : Secret) (src excl : String) (nss : List NamespaceObj) :
    ∀ st : Store, ∀ c ∈ (syncSecretsLoopNs st sec src excl nss).2, ∀ p,
      c.payloadOf = some p → mapLookup p.labels "push-to-k8s" = none := by
  induction nss with
  | nil => intro st c hc; simp [syncSecretsLoopNs] at hc
  | cons nsObj rest ih =>
    intro st c hc
    unfold syncSecretsLoopNs at hc
    by_cases hskip : loopSkips nsObj src excl
    · rw [if_pos hskip] at hc
      exact ih st c hc
    · rw [if_neg hskip] at hc
      simp only [List.mem_append] at hc
      rcases hc with hc | hc
      · exact syncSecretToNamespace_calls_marker st sec nsObj.name excl c hc
      · exact ih (syncSecretToNamespace st sec nsObj.name excl).store c hc

theorem syncSecretsLoopSecrets_marker (src excl : String) (nss : List NamespaceObj)
    (secs : List Secret) :
    ∀ st : Store, ∀ c ∈ (syncSecretsLoopSecrets st src excl nss secs).2, ∀ p,
      c.payloadOf = some p → mapLookup p.labels "push-to-k8s" = none := by
  induction secs with
  | nil => intro st c hc; simp [syncSecretsLoopSecrets] at hc
  | cons sec rest ih =>
    intro st c hc
    unfold syncSecretsLoopSecrets at hc
    simp only [List.mem_append] at hc
    rcases hc with hc | hc
    · exact syncSecretsLoopNs_marker sec src excl nss st c hc
    · exact ih (syncSecretsLoopNs st sec src excl nss).1 c hc

theorem syncToSingleLoop_marker (target excl : String) (secs : List Secret) :
    ∀ st : Store, ∀ c ∈ (syncToSingleLoop st target excl secs).2, ∀ p,
      c.payloadOf = some p → mapLookup p.labels "push-to-k8s" = none := by
  induction secs with
  | nil => intro st c hc; simp [syncToSingleLoop] at hc
  | cons sec rest ih =>
    intro st c hc
    unfold syncToSingleLoop at hc
    simp only [List.mem_append] at hc
    rcases hc with hc | hc
    · exact syncSecretToNamespace_calls_marker st sec target excl c hc
    · exact ih (syncSecretToNamespace st sec target excl).store c hc

theorem SyncSecrets_marker (st : Store) (src excl : String) :
    ∀ c ∈ (SyncSecrets st src excl).calls, ∀ p,
      c.payloadOf = some p → mapLookup p.labels "push-to-k8s" = none := by
  unfold SyncSecrets
  split
  · intro c hc; simp at hc
  · next secs heqs =>
    split
    · intro c hc; simp at hc
    · next nss heq =>
      intro c hc
      exact syncSecretsLoopSecrets_marker src excl nss secs st c hc

theorem syncSingleSecretToAllNamespaces_marker (st : Store) (sec : Secret) (src excl : String) :
    ∀ c ∈ (syncSingleSecretToAllNamespaces st sec src excl).calls, ∀ p,
      c.payloadOf = some p → mapLookup p.labels "push-to-k8s" = none := by
  unfold syncSingleSecretToAllNamespaces
  split
  · intro c hc; simp at hc
  · intro c hc
    exact syncSecretsLoopNs_marker sec src excl _ st c hc

theorem watchNamespacesAddFunc_marker (st : Store) (evNs : NamespaceObj) (src excl : String) :
    ∀ c ∈ (watchNamespacesAddFunc st evNs src excl).calls, ∀ p,
      c.payloadOf = some p → mapLookup p.labels "push-to-k8s" = none := by
  unfold watchNamespacesAddFunc
  split
  · intro c hc; simp at hc
  · split
    · intro c hc; simp at hc
    · intro c hc
      unfold syncSecretsToSingleNamespace at hc
      split at hc
      · simp at hc
      · exact syncToSingleLoop_marker evNs.name excl _ st c hc

/-! ## Claim C3 -/

/-- C3: for every namespace and every path — full sweep `SyncSecrets`,
single-secret fan-out `syncSingleSecretToAllNamespaces`, the single-namespace
trigger (the namespace-informer AddFunc routing through
`syncSecretToNamespace`), and delete propagation
`deleteSingleSecretFromAllNamespaces` — no create, update, or delete request
targets a namespace for which `eligibleSpec` is false, including runs in which
the namespace label re-fetch inside `syncSecretToNamespace` fails (arbitrary
`nsGetFails`): every entry point filters on the listed or event-supplied
labels before writing. -/
theorem no_write_targets_ineligible_namespace
    (st : Store) (src excl : String) (sec : Secret) (secretName : String)
    (evNs nsObj : NamespaceObj)
    (hnodup : (st.namespaces.map NamespaceObj.name).Nodup)
    (hev : evNs ∈ st.namespaces)
    (hns : nsObj ∈ st.namespaces)
    (hinel : eligibleSpec nsObj src excl = false) :
    (∀ c ∈ (SyncSecrets st src excl).calls, c.target ≠ nsObj.name) ∧
    (∀ c ∈ (syncSingleSecretToAllNamespaces st sec src excl).calls, c.target ≠ nsObj.name) ∧
    (∀ c ∈ (watchNamespacesAddFunc st evNs src excl).calls, c.target ≠ nsObj.name) ∧
    (∀ c ∈ (deleteSingleSecretFromAllNamespaces st secretName src excl).calls,
      c.target ≠ nsObj.name) := by
  have key : ∀ m ∈ st.namespaces, loopSkips m src excl = false → m.name ≠ nsObj.name := by
    intro m hm hskip heq
    have hmeq : m = nsObj := List.inj_on_of_nodup_map hnodup hm hns heq
    rw [hmeq, loopSkips_eq_not_eligibleSpec, hinel] at hskip
    simp at hskip
  refine ⟨?_, ?_, ?_, ?_⟩
  · intro c hc
    obtain ⟨m, hm, h1, h2⟩ := SyncSecrets_calls st src excl c hc
    rw [h2]; exact key m hm h1
  · intro c hc
    obtain ⟨m, hm, h1, h2⟩ := syncSingleSecretToAllNamespaces_calls st sec src excl c hc
    rw [h2]; exact key m hm h1
  · intro c hc
    obtain ⟨h1, h2⟩ := watchNamespacesAddFunc_calls st evNs src excl c hc
    rw [h2]; exact key evNs hev h1
  · intro c hc
    obtain ⟨m, hm, h1, h2⟩ :=
      deleteSingleSecretFromAllNamespaces_calls st secretName src excl c hc
    rw [h2]; exact key m hm h1

def secC3 : Secret :=
  ⟨"creds", "src", "u1", "1", "t", 1, [], some [("push-to-k8s", "source")], none,
    "Opaque", some [("user", "a")], none⟩

def nsOkC3 : NamespaceObj := ⟨"ns-ok", none⟩

def nsExclC3 : NamespaceObj := ⟨"ns-excl", some [("skip", "true")]⟩

/-- A store in which the excluded namespace label fetch fails transiently. -/
def stC3 : Store :=
  ⟨[⟨"src", none⟩, nsOkC3, nsExclC3], [secC3], ["ns-excl"], false, false, [], 0⟩

/-- Witness for C3 at a concrete store with a failing label fetch. -/
theorem no_write_targets_ineligible_namespace_witness :
    ((stC3.namespaces.map NamespaceObj.name).Nodup ∧ nsOkC3 ∈ stC3.namespaces ∧
      nsExclC3 ∈ stC3.namespaces ∧ eligibleSpec nsExclC3 "src" "skip" = false) ∧
    ((∀ c ∈ (SyncSecrets stC3 "src" "skip").calls, c.target ≠ nsExclC3.name) ∧
     (∀ c ∈ (syncSingleSecretToAllNamespaces stC3 secC3 "src" "skip").calls,
        c.target ≠ nsExclC3.name) ∧
     (∀ c ∈ (watchNamespacesAddFunc stC3 nsOkC3 "src" "skip").calls,
        c.target ≠ nsExclC3.name) ∧
     (∀ c ∈ (deleteSingleSecretFromAllNamespaces stC3 "creds" "src" "skip").calls,
        c.target ≠ nsExclC3.name)) :=
  ⟨⟨by decide, by decide, by decide, by decide⟩,
    no_write_targets_ineligible_namespace stC3 "src" "skip" secC3 "creds" nsOkC3 nsExclC3
      (by decide) (by decide) (by decide) (by decide)⟩

/-! ## Claim C7 -/

/-- C7: every secret object written to a target namespace by the create branch
or the update branch of `syncSecretToNamespace`, on any path (direct call,
full sweep, single-secret fan-out, namespace-creation trigger), has the marker
label key push-to-k8s absent from its labels. -/
theorem marker_label_absent_from_written_payloads
    (st : Store) (source sec : Secret) (nsp src excl : String) (evNs : NamespaceObj) :
    (∀ c ∈ (syncSecretToNamespace st source nsp excl).calls, ∀ p,
        c.payloadOf = some p → mapLookup p.labels "push-to-k8s" = none) ∧
    (∀ c ∈ (SyncSecrets st src excl).calls, ∀ p,
        c.payloadOf = some p → mapLookup p.labels "push-to-k8s" = none) ∧
    (∀ c ∈ (syncSingleSecretToAllNamespaces st sec src excl).calls, ∀ p,
        c.payloadOf = some p → mapLookup p.labels "push-to-k8s" = none) ∧
    (∀ c ∈ (watchNamespacesAddFunc st evNs src excl).calls, ∀ p,
        c.payloadOf = some p → mapLookup p.labels "push-to-k8s" = none) :=
  ⟨syncSecretToNamespace_calls_marker st source nsp excl,
   SyncSecrets_marker st src excl,
   syncSingleSecretToAllNamespaces_marker st sec src excl,
   watchNamespacesAddFunc_marker st evNs src excl⟩

def secC7 : Secret :=
  ⟨"creds", "src", "u1", "1", "t", 1, [], some [("push-to-k8s", "source"), ("app", "x")],
    none, "Opaque", some [("user", "a")], none⟩

def stC7 : Store := ⟨[⟨"src", none⟩, ⟨"ns1", none⟩], [], [], false, false, [], 0⟩

def payloadC7 : Secret :=
  { secC7 with nsp := "ns1", resourceVersion := "", labels := mapDelete secC7.labels "push-to-k8s" }

/-- Witness for C7: the concrete create payload issued for ns1 has no marker
label. -/
theorem marker_label_absent_from_written_payloads_witness :
    mapLookup payloadC7.labels "push-to-k8s" = none :=
  (marker_label_absent_from_written_payloads stC7 secC7 secC7 "ns1" "src" "" ⟨"ns1", none⟩).1
    (ApiCall.create "ns1" payloadC7) (by decide) payloadC7 rfl

/-! ## Claim C1 -/

def srcSecC1 : Secret :=
  ⟨"creds", "src", "uid-source", "3", "t0", 3, ["m0"], some [("push-to-k8s", "source")], none,
    "Opaque", some [("user", "a")], none⟩

def replicaC1 : Secret :=
  ⟨"creds", "ns1", "uid-target", "5", "t1", 7, ["m1"], none, none,
    "Opaque", some [("user", "b")], none⟩

def stC1 : Store := ⟨[⟨"src", none⟩, ⟨"ns1", none⟩], [replicaC1], [], false, false, [], 0⟩

def payloadC1 : Secret :=
  { srcSecC1 with
    nsp := "ns1"
    resourceVersion := replicaC1.resourceVersion
    labels := mapDelete srcSecC1.labels "push-to-k8s" }

/-- C1 (refuted by the code): for an existing replica whose data differs from
the source, the update payload is built by deep-copying the source object, so
the UID in the payload is the source UID, not the fetched replica UID, and the
modelled store rejects the update with a UID-mismatch precondition failure,
leaving the store unchanged. -/
theorem update_payload_carries_source_uid :
    (syncSecretToNamespace stC1 srcSecC1 "ns1" "").calls = [ApiCall.update "ns1" payloadC1] ∧
    payloadC1.uid = "uid-source" ∧
    payloadC1.uid ≠ replicaC1.uid ∧
    (syncSecretToNamespace stC1 srcSecC1 "ns1" "").result =
      .error ("failed to update secret creds in namespace ns1: " ++
        "Precondition failed: UID in precondition uid-target " ++
        "does not match object UID uid-source") ∧
    (syncSecretToNamespace stC1 srcSecC1 "ns1" "").store = stC1 :=
  ⟨rfl, rfl, by decide, by decide, rfl⟩

/-! ## Claim C8 -/

def srcSecC8 : Secret :=
  ⟨"creds", "src", "u1", "7", "t0", 3, ["m1"], some [("push-to-k8s", "source"), ("app", "x")],
    some [("ann", "v")], "Opaque", some [("user", "a")], some [("s", "w")]⟩

def stC8 : Store := ⟨[⟨"src", none⟩, ⟨"ns1", none⟩], [], [], false, false, [], 0⟩

def payloadC8 : Secret :=
  { srcSecC8 with
    nsp := "ns1"
    resourceVersion := ""
    labels := mapDelete srcSecC8.labels "push-to-k8s" }

/-- C8 counterexample: the create payload built for an absent replica keeps
the source UID, creation timestamp, generation and managed fields; only the
resource version is cleared, refuting the claim that all identity metadata in
the payload is empty. -/
theorem create_payload_keeps_source_identity_counterexample :
    (syncSecretToNamespace stC8 srcSecC8 "ns1" "").calls = [ApiCall.create "ns1" payloadC8] ∧
    payloadC8.uid = "u1" ∧ payloadC8.uid ≠ "" ∧
    payloadC8.creationTimestamp = "t0" ∧ payloadC8.generation = 3 ∧
    payloadC8.managedFields = ["m1"] ∧ payloadC8.resourceVersion = "" :=
  ⟨rfl, rfl, by decide, rfl, rfl, rfl, rfl⟩

/-- C8 amended: when the replica is absent and the exclude guard does not
skip, the create payload is exactly the source secret with the namespace set,
the resource version cleared and the marker label removed — Data, StringData,
Type, Labels (minus marker) and Annotations are copied, while the identity
fields UID, creation timestamp, generation and managed fields are copied from
the source rather than cleared (the store assigns fresh ones on create
regardless). -/
theorem create_payload_clears_only_resource_version
    (st : Store) (source : Secret) (nsp excl e : String)
    (hskip : skipExcluded st nsp excl = false)
    (habsent : secretGet st nsp source.name = .error e) :
    (syncSecretToNamespace st source nsp excl).calls =
      [ApiCall.create nsp
        { source with
          nsp := nsp
          resourceVersion := ""
          labels := mapDelete source.labels "push-to-k8s" }] := by
  unfold syncSecretToNamespace
  rw [if_neg (by simp [hskip]), habsent]
  dsimp only
  split <;> rfl

/-- Witness for the amended C8 at a concrete store. -/
theorem create_payload_clears_only_resource_version_witness :
    skipExcluded stC8 "ns1" "" = false ∧
    secretGet stC8 "ns1" "creds" = .error "secrets creds not found" ∧
    (syncSecretToNamespace stC8 srcSecC8 "ns1" "").calls =
      [ApiCall.create "ns1"
        { srcSecC8 with
          nsp := "ns1"
          resourceVersion := ""
          labels := mapDelete srcSecC8.labels "push-to-k8s" }] :=
  ⟨rfl, by decide,
    create_payload_clears_only_resource_version stC8 srcSecC8 "ns1" ""
      "secrets creds not found" rfl (by decide)⟩

/-! ## Claim C9 -/

theorem string_toList_injective {a b : String} (h : a.toList = b.toList) : a = b := by
  cases a; cases b; exact congrArg String.mk (by simpa using h)

theorem findSubstring_iff (s substr : String)
    (hle : substr.toList.length ≤ s.toList.length) :
    findSubstring s substr = true ↔
      ∃ l r : List Char, s.toList = l ++ substr.toList ++ r := by
  unfold findSubstring
  rw [List.any_eq_true]
  constructor
  · rintro ⟨i, hi, hp⟩
    rw [List.mem_range] at hi
    have heq : (s.toList.drop i).take substr.toList.length = substr.toList := by
      simpa using hp
    refine ⟨s.toList.take i, (s.toList.drop i).drop substr.toList.length, ?_⟩
    calc s.toList = s.toList.take i ++ s.toList.drop i :=
          (List.take_append_drop i s.toList).symm
      _ = s.toList.take i ++
            ((s.toList.drop i).take substr.toList.length ++
              (s.toList.drop i).drop substr.toList.length) := by
          rw [List.take_append_drop substr.toList.length (s.toList.drop i)]
      _ = s.toList.take i ++ substr.toList ++
            (s.toList.drop i).drop substr.toList.length := by
          rw [heq, List.append_assoc]
  · rintro ⟨l, r, h⟩
    have hlen : s.toList.length = l.length + substr.toList.length + r.length := by
      rw [h]; simp [List.length_append]; omega
    refine ⟨l.length, ?_, ?_⟩
    · rw [List.mem_range]; omega
    · have hd : s.toList.drop l.length = substr.toList ++ r := by
        rw [h, List.append_assoc, List.drop_left]
      rw [hd]
      simp [List.take_left]

theorem contains_iff (s substr : String) (hne : substr.toList ≠ []) :
    contains s substr = true ↔
      ∃ l r : List Char, s.toList = l ++ substr.toList ++ r := by
  by_cases hlt : s.toList.length < substr.toList.length
  · constructor
    · intro h
      exfalso
      unfold contains at h
      simp only [Bool.and_eq_true, decide_eq_true_eq] at h
      omega
    · rintro ⟨l, r, h⟩
      exfalso
      have : s.toList.length = l.length + substr.toList.length + r.length := by
        rw [h]; simp [List.length_append]; omega
      omega
  · have hle : substr.toList.length ≤ s.toList.length := by omega
    by_cases hseq : s = substr
    · subst hseq
      constructor
      · intro _; exact ⟨[], [], by simp⟩
      · intro _
        unfold contains
        simp
    · by_cases hlgt : substr.toList.length < s.toList.length
      · have hfind := findSubstring_iff s substr hle
        constructor
        · intro h
          unfold contains at h
          simp only [Bool.and_eq_true, Bool.or_eq_true, decide_eq_true_eq, beq_iff_eq] at h
          rcases h.2 with h2 | h2
          · exact absurd h2 hseq
          · exact hfind.mp h2.2
        · intro h
          unfold contains
          simp only [Bool.and_eq_true, Bool.or_eq_true, decide_eq_true_eq, beq_iff_eq]
          exact ⟨hle, Or.inr ⟨hlgt, hfind.mpr h⟩⟩
      · have hleq : s.toList.length = substr.toList.length := by omega
        constructor
        · intro h
          exfalso
          unfold contains at h
          simp only [Bool.and_eq_true, Bool.or_eq_true, decide_eq_true_eq, beq_iff_eq] at h
          rcases h.2 with h2 | h2
          · exact hseq h2
          · omega
        · rintro ⟨l, r, h⟩
          exfalso
          have : s.toList.length = l.length + substr.toList.length + r.length := by
            rw [h]; simp [List.length_append]; omega
          have hl0 : l.length = 0 := by omega
          have hr0 : r.length = 0 := by omega
          rw [List.length_eq_zero.mp hl0, List.length_eq_zero.mp hr0] at h
          simp at h
          exact hseq (string_toList_injective h)

/-- C9: a per-namespace delete failure is classified not-found exactly when
its message contains the substring "not found" anywhere, and
`deleteSingleSecretFromAllNamespaces` returns no error whenever the namespace
listing succeeds, regardless of how many per-namespace deletes failed. -/
theorem not_found_classification_and_nil_return :
    (∀ msg : String, isNotFoundError (some msg) = true ↔
      ∃ l r : List Char, msg.toList = l ++ ("not found").toList ++ r) ∧
    (∀ (st : Store) (secretName src excl : String), st.nsListFails = false →
      (deleteSingleSecretFromAllNamespaces st secretName src excl).result = .ok ()) := by
  constructor
  · intro msg
    have hcont := contains_iff msg "not found" (by decide)
    by_cases hempty : msg = ""
    · subst hempty
      constructor
      · intro h; exact absurd h (by decide)
      · rintro ⟨l, r, h⟩
        exfalso
        have hlen := congrArg List.length h
        simp [List.length_append] at hlen
        omega
    · have h1 : (msg != "") = true := by simpa using hempty
      rw [show isNotFoundError (some msg) =
        (msg != "" && (msg == "not found" || contains msg "not found")) from rfl, h1]
      simp only [Bool.true_and, Bool.or_eq_true, beq_iff_eq]
      constructor
      · rintro (h | h)
        · subst h; exact ⟨[], [], by simp⟩
        · exact hcont.mp h
      · intro h
        exact Or.inr (hcont.mpr h)
  · intro st secretName src excl hfails
    unfold deleteSingleSecretFromAllNamespaces nsList
    rw [hfails]
    rfl

def stC9 : Store :=
  ⟨[⟨"src", none⟩, ⟨"ns1", none⟩, ⟨"ns2", none⟩], [], [], false, false,
    [(("ns1", "creds"), "boom, but not found text inside"),
     (("ns2", "creds"), "connection refused")], 0⟩

/-- Witness for C9: at a store where one delete fails with an unrelated error
whose text contains "not found" and another fails with a plain error, the
function still returns no error, and the unrelated error is classified
not-found (silent success). -/
theorem not_found_classification_and_nil_return_witness :
    (deleteSingleSecretFromAllNamespaces stC9 "creds" "src" "").result = .ok () ∧
    isNotFoundError (some "boom, but not found text inside") = true ∧
    (deleteSingleSecretFromAllNamespaces stC9 "creds" "src" "").warnings =
      [("ns2", "connection refused")] :=
  ⟨not_found_classification_and_nil_return.2 stC9 "creds" "src" "" rfl,
    (not_found_classification_and_nil_return.1 "boom, but not found text inside").mpr
      ⟨("boom, but ").toList, (" text inside").toList, by decide⟩,
    by decide⟩

/-! ## Claim C10 -/

/-- C10: when no secret in the source namespace carries the label
push-to-k8s=source, `getSourceSecrets` returns an empty list and no error, and
a full sweep over any set of namespaces completes successfully with zero write
requests, leaving the store unchanged. -/
theorem no_source_secrets_full_sweep_noop
    (st : Store) (src excl : String)
    (hlist : st.secretListFails = false)
    (hnslist : st.nsListFails = false)
    (hnone : ∀ s ∈ st.secrets, s.nsp = src →
      mapLookup s.labels "push-to-k8s" ≠ some "source") :
    getSourceSecrets st src = .ok [] ∧
    (SyncSecrets st src excl).result = .ok () ∧
    (SyncSecrets st src excl).calls = [] ∧
    (SyncSecrets st src excl).store = st := by
  have hfilter : st.secrets.filter
      (fun s => s.nsp == src && mapLookup s.labels "push-to-k8s" == some "source") = [] := by
    rw [List.filter_eq_nil_iff]
    intro s hs
    by_cases hn : s.nsp = src
    · simp [hn, hnone s hs hn]
    · simp [hn]
  have hget : getSourceSecrets st src = .ok [] := by
    unfold getSourceSecrets secretList
    rw [hlist]
    simp [hfilter]
  refine ⟨hget, ?_, ?_, ?_⟩ <;>
  · unfold SyncSecrets
    rw [hget]
    unfold nsList
    rw [hnslist]
    rfl

def stC10 : Store :=
  ⟨[⟨"src", none⟩, ⟨"ns1", none⟩],
    [⟨"plain", "src", "u2", "1", "t", 1, [], some [("other", "x")], none, "Opaque",
      some [("k", "v")], none⟩], [], false, false, [], 0⟩

/-- Witness for C10: a store whose only source-namespace secret lacks the
marker label. -/
theorem no_source_secrets_full_sweep_noop_witness :
    (stC10.secretListFails = false ∧ stC10.nsListFails = false) ∧
    (getSourceSecrets stC10 "src" = .ok [] ∧
      (SyncSecrets stC10 "src" "").result = .ok () ∧
      (SyncSecrets stC10 "src" "").calls = [] ∧
      (SyncSecrets stC10 "src" "").store = stC10) :=
  ⟨⟨rfl, rfl⟩,
    no_source_secrets_full_sweep_noop stC10 "src" "" rfl rfl (by decide)⟩

/-! ## Helper lemmas: inversion of the store operations -/

theorem secretGet_ok_find {st : Store} {nsp name : String} {s : Secret}
    (h : secretGet st nsp name = .ok s) :
    st.secrets.find? (fun x => x.nsp == nsp && x.name == name) = some s := by
  unfold secretGet at h
  split at h
  · next s2 heq => injection h with h2; rw [← h2]; exact heq
  · cases h

theorem secretGet_error_find {st : Store} {nsp name e : String}
    (h : secretGet st nsp name = .error e) :
    st.secrets.find? (fun x => x.nsp == nsp && x.name == name) = none := by
  unfold secretGet at h
  split at h
  · cases h
  · next heq => exact heq

theorem any_eq_false_of_find?_eq_none {α : Type} {p : α → Bool} {l : List α}
    (h : l.find? p = none) : l.any p = false := by
  rw [List.find?_eq_none] at h
  refine Bool.eq_false_iff.mpr fun hany => ?_
  rw [List.any_eq_true] at hany
  obtain ⟨x, hx, hpx⟩ := hany
  exact absurd hpx (by simpa using h x hx)

theorem secretUpdate_error_store {st : Store} {nsp : String} {p : Secret} {st2 : Store}
    {e : String} (h : secretUpdate st nsp p = (st2, .error e)) : st2 = st := by
  unfold secretUpdate at h
  split at h
  · injection h with h1 h2; exact h1.symm
  · split at h
    · injection h with h1 h2; exact h1.symm
    · split at h
      · injection h with h1 h2; exact h1.symm
      · dsimp only at h
        injection h with h1 h2
        cases h2

theorem secretCreate_error_store {st : Store} {nsp : String} {p : Secret} {st2 : Store}
    {e : String} (h : secretCreate st nsp p = (st2, .error e)) : st2 = st := by
  unfold secretCreate at h
  split at h
  · injection h with h1 h2; exact h1.symm
  · dsimp only at h
    injection h with h1 h2
    cases h2

theorem secretUpdate_ok_state {st : Store} {nsp : String} {p : Secret} {st2 : Store}
    {newd : Secret} (h : secretUpdate st nsp p = (st2, .ok newd)) :
    secretGet st2 nsp p.name = .ok newd ∧ newd.data = p.data ∧
    newd.stringData = p.stringData ∧ st2.namespaces = st.namespaces ∧
    st2.nsGetFails = st.nsGetFails := by
  unfold secretUpdate at h
  split at h
  · injection h with h1 h2; cases h2
  · next stored hfind =>
    split at h
    · injection h with h1 h2; cases h2
    · split at h
      · injection h with h1 h2; cases h2
      · dsimp only at h
        injection h with h1 h2
        injection h2 with h3
        subst h1
        subst h3
        refine ⟨?_, rfl, rfl, rfl, rfl⟩
        unfold secretGet
        dsimp only
        rw [find?_map_replace _ _ _ stored hfind (by simp)]

theorem secretCreate_ok_state {st : Store} {nsp : String} {p : Secret} {st2 : Store}
    {newd : Secret} (h : secretCreate st nsp p = (st2, .ok newd))
    (hnone : st.secrets.find? (fun x => x.nsp == nsp && x.name == p.name) = none) :
    secretGet st2 nsp p.name = .ok newd ∧ newd.data = p.data ∧
    newd.stringData = p.stringData ∧ st2.namespaces = st.namespaces ∧
    st2.nsGetFails = st.nsGetFails := by
  unfold secretCreate at h
  split at h
  · injection h with h1 h2; cases h2
  · dsimp only at h
    injection h with h1 h2
    injection h2 with h3
    subst h1
    subst h3
    refine ⟨?_, rfl, rfl, rfl, rfl⟩
    unfold secretGet
    dsimp only
    rw [find?_append_of_none _ _ _ hnone, find?_cons_eq, if_pos (by simp)]

theorem syncSecretToNamespace_calls_len (st : Store) (source : Secret) (nsp excl : String) :
    (syncSecretToNamespace st source nsp excl).calls.length ≤ 1 := by
  unfold syncSecretToNamespace
  split
  · simp
  · split
    · split
      · simp
      · dsimp only; split <;> simp
    · dsimp only; split <;> simp

/-! ## Claim C6 -/

/-- C6: when the existing replica Data and StringData equal the source ones
(order-independent lookup equality on well-formed maps — absent and empty maps
have the same lookups), `syncSecretToNamespace` issues no create and no update
request and returns success; moreover an immediately repeated call for the
same (secret, namespace) pair never changes the store again, and a single call
issues at most one write request, so two successive calls with no intervening
source change perform at most one write. -/
theorem sync_skip_when_equal_and_idempotent
    (st : Store) (source : Secret) (nsp excl : String)
    (hd : nodupKeys source.data) (hs : nodupKeys source.stringData) :
    (∀ existing : Secret,
      secretGet st nsp source.name = .ok existing →
      nodupKeys existing.data → nodupKeys existing.stringData →
      (∀ k, mapLookup existing.data k = mapLookup source.data k) →
      (∀ k, mapLookup existing.stringData k = mapLookup source.stringData k) →
      (syncSecretToNamespace st source nsp excl).calls = [] ∧
      (syncSecretToNamespace st source nsp excl).result = .ok ()) ∧
    (syncSecretToNamespace (syncSecretToNamespace st source nsp excl).store
        source nsp excl).store = (syncSecretToNamespace st source nsp excl).store ∧
    (syncSecretToNamespace st source nsp excl).calls.length ≤ 1 := by
  refine ⟨?_, ?_, syncSecretToNamespace_calls_len st source nsp excl⟩
  · intro existing hget hed hes hdl hsl
    have hcmp : compareSecrets existing source = true :=
      compareSecrets_of_lookup_eq hed hd hes hs hdl hsl
    unfold syncSecretToNamespace
    by_cases hskip : skipExcluded st nsp excl = true
    · rw [if_pos hskip]; exact ⟨rfl, rfl⟩
    · rw [if_neg hskip, hget]
      dsimp only
      rw [if_pos hcmp]
      exact ⟨rfl, rfl⟩
  · generalize hr1 : syncSecretToNamespace st source nsp excl = r1
    unfold syncSecretToNamespace at hr1
    split at hr1
    · next hskip =>
      subst hr1
      dsimp only
      unfold syncSecretToNamespace
      rw [if_pos hskip]
    · next hskip =>
      split at hr1
      · next existing hget =>
        split at hr1
        · next hcmp =>
          subst hr1
          dsimp only
          unfold syncSecretToNamespace
          rw [if_neg hskip, hget]
          dsimp only
          rw [if_pos hcmp]
        · next hcmp =>
          dsimp only at hr1
          split at hr1
          · next st2 newd hu =>
            subst hr1
            dsimp only
            obtain ⟨hget2, hdata, hsdata, hnsp2, hfails2⟩ := secretUpdate_ok_state hu
            have hget2' : secretGet st2 nsp source.name = .ok newd := hget2
            have hdata' : newd.data = source.data := hdata
            have hsdata' : newd.stringData = source.stringData := hsdata
            have hcmp2 : compareSecrets newd source = true := by
              unfold compareSecrets
              rw [hdata', hsdata', equalStringMaps_eq_equalByteMaps,
                equalByteMaps_refl hd, equalByteMaps_refl hs]
              rfl
            have hskip2 : ¬(skipExcluded st2 nsp excl = true) := by
              rw [skipExcluded_congr hnsp2 hfails2 nsp excl]; exact hskip
            unfold syncSecretToNamespace
            rw [if_neg hskip2, hget2']
            dsimp only
            rw [if_pos hcmp2]
          · next st2 e2 hu =>
            subst hr1
            dsimp only
            have hst2 : st2 = st := secretUpdate_error_store hu
            subst hst2
            unfold syncSecretToNamespace
            rw [if_neg hskip, hget]
            dsimp only
            rw [if_neg hcmp, hu]
      · next e hget =>
        dsimp only at hr1
        have hnone := secretGet_error_find hget
        split at hr1
        · next st2 newd hc =>
          subst hr1
          dsimp only
          obtain ⟨hget2, hdata, hsdata, hnsp2, hfails2⟩ := secretCreate_ok_state hc hnone
          have hget2' : secretGet st2 nsp source.name = .ok newd := hget2
          have hdata' : newd.data = source.data := hdata
          have hsdata' : newd.stringData = source.stringData := hsdata
          have hcmp2 : compareSecrets newd source = true := by
            unfold compareSecrets
            rw [hdata', hsdata', equalStringMaps_eq_equalByteMaps,
              equalByteMaps_refl hd, equalByteMaps_refl hs]
            rfl
          have hskip2 : ¬(skipExcluded st2 nsp excl = true) := by
            rw [skipExcluded_congr hnsp2 hfails2 nsp excl]; exact hskip
          unfold syncSecretToNamespace
          rw [if_neg hskip2, hget2']
          dsimp only
          rw [if_pos hcmp2]
        · next st2 e2 hc =>
          subst hr1
          dsimp only
          have hst2 : st2 = st := secretCreate_error_store hc
          subst hst2
          unfold syncSecretToNamespace
          rw [if_neg hskip, hget]
          dsimp only
          rw [hc]

def replicaC6 : Secret :=
  ⟨"creds", "ns1", "u-t", "5", "t1", 1, [], none, none, "Opaque", some [("user", "a")], none⟩

def srcSecC6 : Secret :=
  ⟨"creds", "src", "u-s", "3", "t0", 1, [], some [("push-to-k8s", "source")], none,
    "Opaque", some [("user", "a")], none⟩

def stC6 : Store := ⟨[⟨"src", none⟩, ⟨"ns1", none⟩], [replicaC6], [], false, false, [], 0⟩

/-- Witness for C6 at a concrete store whose replica already equals the
source data. -/
theorem sync_skip_when_equal_and_idempotent_witness :
    (syncSecretToNamespace stC6 srcSecC6 "ns1" "").calls = [] ∧
    (syncSecretToNamespace stC6 srcSecC6 "ns1" "").result = .ok () ∧
    (syncSecretToNamespace (syncSecretToNamespace stC6 srcSecC6 "ns1" "").store
        srcSecC6 "ns1" "").store = (syncSecretToNamespace stC6 srcSecC6 "ns1" "").store ∧
    (syncSecretToNamespace stC6 srcSecC6 "ns1" "").calls.length ≤ 1 :=
  have h := sync_skip_when_equal_and_idempotent stC6 srcSecC6 "ns1" "" (by decide) (by decide)
  have ha := h.1 replicaC6 (by decide) (by decide) (by decide) (fun _ => rfl) (fun _ => rfl)
  ⟨ha.1, ha.2, h.2.1, h.2.2⟩

/-! ## Claim C2 -/

def stC2 : Store := ⟨[⟨"src", none⟩], [], [], false, false, [], 0⟩

/-- C2 (refuted by the code): in the Idle state — at startup before any event
has armed the timer — entering the select evaluates the channel of the nil
`timer` variable, so the loop faults on its very first iteration whichever
branch would have been taken; the claim that the timer-fired branch is merely
unreachable and the loop never faults while unarmed does not hold. -/
theorem debounce_idle_select_faults_at_startup :
    stepDebounce stC2 ⟨false, []⟩ "src" "" false (.ev ⟨"add", none, "creds"⟩) = none ∧
    stepDebounce stC2 ⟨false, []⟩ "src" "" false .ctxDone = none ∧
    stepDebounce stC2 ⟨false, []⟩ "src" "" false .timerFires = none :=
  ⟨rfl, rfl, rfl⟩

/-! ## Claim C4 -/

theorem processBatchLoop_cancelled (st : Store) (src excl : String) :
    ∀ l : List (String × SecretEvent), processBatchLoop true st src excl l = (st, [], []) := by
  intro l
  induction l with
  | nil => rfl
  | cons q rest ih =>
    obtain ⟨k, ev⟩ := q
    unfold processBatchLoop
    rw [if_pos rfl]
    exact ih

def srcSecC4 : Secret :=
  ⟨"creds", "src", "u4", "1", "t", 1, [], some [("push-to-k8s", "source")], none,
    "Opaque", some [("user", "a")], none⟩

def stC4 : Store := ⟨[⟨"src", none⟩, ⟨"ns1", none⟩], [], [], false, false, [], 0⟩

def pendingC4 : List (String × SecretEvent) :=
  [("creds", ⟨"add", some srcSecC4, "creds"⟩)]

/-- C4 counterexample: at shutdown with a pending add event in an armed state,
the drain dispatches zero fan-outs and issues zero write requests — the rate
limiter acquisition fails under the cancelled context and every pending item
is skipped — although processing the same batch under a live context would
issue a write; this refutes the claim that each pending fan-out is actually
performed. -/
theorem shutdown_drain_skips_pending_counterexample :
    stepDebounce stC4 ⟨true, pendingC4⟩ "src" "" true .ctxDone
      = some (none, stC4, [], []) ∧
    pendingC4 ≠ [] ∧
    (processBatchLoop false stC4 "src" "" pendingC4).2.2 ≠ [] :=
  ⟨rfl, by decide, by decide⟩

/-- C4 amended: on cancellation of the shared context, the processor invokes
the batch processor on the pending map exactly once before stopping, but every
pending item is skipped because its rate-limiter acquisition fails with the
already-cancelled context: no sync or delete fan-out is dispatched, no write
request is issued, and the store is unchanged; the loop then returns. -/
theorem shutdown_drain_applies_nothing
    (st : Store) (s : DebounceState) (src excl : String) (cancelled : Bool)
    (harmed : s.timerArmed = true) :
    stepDebounce st s src excl cancelled .ctxDone = some (none, st, [], []) := by
  unfold stepDebounce
  rw [if_neg (by simp [harmed])]
  dsimp only
  rw [processBatchLoop_cancelled st src excl s.pendingEvents]

/-- Witness for the amended C4 at a concrete armed state with pending work. -/
theorem shutdown_drain_applies_nothing_witness :
    (⟨true, pendingC4⟩ : DebounceState).timerArmed = true ∧
    stepDebounce stC4 ⟨true, pendingC4⟩ "src" "" false .ctxDone = some (none, stC4, [], []) :=
  ⟨rfl, shutdown_drain_applies_nothing stC4 ⟨true, pendingC4⟩ "src" "" false rfl⟩

/-! ## Claim C5: debounce coalescing -/

/-- The fan-outs one pending entry dispatches under a live context. -/
def entryActions (q : String × SecretEvent) : List BatchAction :=
  if q.2.eventType == "add" || q.2.eventType == "update" then
    match q.2.secret with
    | some sec => [.syncAll sec.name]
    | none => []
  else if q.2.eventType == "delete" then [.deleteAll q.2.name]
  else []

/-- The single fan-out the batch processor dispatches for an informer event. -/
def actionOfEvent (e : SecretEvent) (n : String) : BatchAction :=
  if e.eventType == "delete" then .deleteAll n else .syncAll n

theorem actionOfEvent_name (e : SecretEvent) (n : String) :
    (actionOfEvent e n).nameOf = n := by
  unfold actionOfEvent; split <;> rfl

theorem processBatchLoop_acts (src excl : String) :
    ∀ (l : List (String × SecretEvent)) (st : Store),
      (processBatchLoop false st src excl l).2.1 = (l.map entryActions).flatten := by
  intro l
  induction l with
  | nil => intro st; rfl
  | cons q rest ih =>
    obtain ⟨k, ev⟩ := q
    intro st
    unfold processBatchLoop
    rw [if_neg (by simp), List.map_cons, List.flatten_cons]
    by_cases hA : (ev.eventType == "add" || ev.eventType == "update") = true
    · rw [if_pos hA]
      cases hsec : ev.secret with
      | some sec =>
        dsimp only
        rw [ih]
        unfold entryActions
        dsimp only
        rw [if_pos hA, hsec]
        rfl
      | none =>
        dsimp only
        rw [ih]
        unfold entryActions
        dsimp only
        rw [if_pos hA, hsec]
        rfl
    · rw [if_neg hA]
      by_cases hB : (ev.eventType == "delete") = true
      · rw [if_pos hB]
        dsimp only
        rw [ih]
        unfold entryActions
        dsimp only
        rw [if_neg hA, if_pos hB]
        rfl
      · rw [if_neg hB, ih]
        unfold entryActions
        dsimp only
        rw [if_neg hA, if_neg hB]
        rfl

theorem recordEvent_wf {p : List (String × SecretEvent)}
    (hwf : ∀ q ∈ p, eventKey q.2 = some q.1) (e : SecretEvent) :
    ∀ q ∈ recordEvent p e, eventKey q.2 = some q.1 := by
  intro q hq
  unfold recordEvent at hq
  cases hk : eventKey e with
  | none => rw [hk] at hq; exact hwf q hq
  | some k =>
    rw [hk] at hq
    unfold pendingInsert at hq
    rw [List.mem_append] at hq
    rcases hq with hq | hq
    · exact hwf q (List.mem_of_mem_filter hq)
    · rw [List.mem_singleton] at hq
      subst hq
      exact hk

theorem recordEvents_wf : ∀ (es : List SecretEvent) (p : List (String × SecretEvent)),
    (∀ q ∈ p, eventKey q.2 = some q.1) →
    ∀ q ∈ recordEvents p es, eventKey q.2 = some q.1 := by
  intro es
  induction es with
  | nil => intro p hwf; exact hwf
  | cons e rest ih => intro p hwf; exact ih (recordEvent p e) (recordEvent_wf hwf e)

theorem runDebounce_events (st : Store) (src excl : String) (cancelled : Bool) :
    ∀ (es : List SecretEvent) (p : List (String × SecretEvent)),
      runDebounce st ⟨true, p⟩ src excl cancelled (es.map DebounceInput.ev) =
        some (some ⟨true, recordEvents p es⟩, st, [], []) := by
  intro es
  induction es with
  | nil => intro p; rfl
  | cons e rest ih =>
    intro p
    have hstep : stepDebounce st ⟨true, p⟩ src excl cancelled (.ev e) =
        some (some ⟨true, recordEvent p e⟩, st, [], []) := by
      unfold stepDebounce
      rw [if_neg (by simp)]
    rw [List.map_cons]
    unfold runDebounce
    rw [hstep]
    dsimp only
    rw [ih (recordEvent p e)]
    rfl

theorem runDebounce_events_then_fire (st : Store) (src excl : String) :
    ∀ (es : List SecretEvent) (p : List (String × SecretEvent)),
      runDebounce st ⟨true, p⟩ src excl false
          (es.map DebounceInput.ev ++ [DebounceInput.timerFires]) =
        some (some ⟨false, []⟩,
          (processBatchLoop false st src excl (recordEvents p es)).1,
          (processBatchLoop false st src excl (recordEvents p es)).2.1,
          (processBatchLoop false st src excl (recordEvents p es)).2.2) := by
  intro es
  induction es with
  | nil =>
    intro p
    have hstep : stepDebounce st ⟨true, p⟩ src excl false .timerFires =
        some (some ⟨false, []⟩, (processBatchLoop false st src excl p).1,
          (processBatchLoop false st src excl p).2.1,
          (processBatchLoop false st src excl p).2.2) := by
      unfold stepDebounce
      rw [if_neg (by simp)]
    show runDebounce st ⟨true, p⟩ src excl false [DebounceInput.timerFires] = _
    simp only [runDebounce, hstep]
    simp only [List.append_nil]
    rfl
  | cons e rest ih =>
    intro p
    have hstep : stepDebounce st ⟨true, p⟩ src excl false (.ev e) =
        some (some ⟨true, recordEvent p e⟩, st, [], []) := by
      unfold stepDebounce
      rw [if_neg (by simp)]
    rw [List.map_cons, List.cons_append]
    simp only [runDebounce, hstep]
    rw [ih (recordEvent p e)]
    rfl

theorem filter_flatten_map {α β : Type} (f : α → List β) (p : β → Bool) (l : List α) :
    ((l.map f).flatten).filter p = (l.map (fun a => (f a).filter p)).flatten := by
  induction l with
  | nil => rfl
  | cons a rest ih => simp [List.filter_append, ih]

theorem entryActions_names : ∀ (q : String × SecretEvent), eventKey q.2 = some q.1 →
    ∀ a ∈ entryActions q, a.nameOf = q.1 := by
  rintro ⟨k, ev⟩ h a ha
  unfold entryActions at ha
  dsimp only at ha h ⊢
  unfold eventKey at h
  by_cases hB : (ev.eventType == "delete") = true
  · rw [if_pos hB] at h
    injection h with h2
    by_cases hA : (ev.eventType == "add" || ev.eventType == "update") = true
    · rw [show ev.eventType = "delete" from by simpa using hB] at hA
      simp at hA
    · rw [if_neg hA, if_pos hB] at ha
      rw [List.mem_singleton] at ha
      subst ha
      exact h2
  · rw [if_neg hB] at h
    by_cases hA : (ev.eventType == "add" || ev.eventType == "update") = true
    · rw [if_pos hA] at ha
      cases hsec : ev.secret with
      | none => rw [hsec] at ha; simp at ha
      | some sec =>
        rw [hsec] at ha h
        rw [List.mem_singleton] at ha
        subst ha
        injection h
    · rw [if_neg hA, if_neg hB] at ha
      simp at ha

theorem entryActions_eq_single {e : SecretEvent} {n : String}
    (h : eventKey e = some n)
    (htype : e.eventType = "add" ∨ e.eventType = "update" ∨ e.eventType = "delete") :
    entryActions (n, e) = [actionOfEvent e n] := by
  unfold eventKey at h
  unfold entryActions actionOfEvent
  dsimp only
  rcases htype with ht | ht | ht
  · rw [ht] at h ⊢
    rw [if_neg (by decide)] at h
    cases hsec : e.secret with
    | none => rw [hsec] at h; cases h
    | some sec =>
      rw [hsec] at h
      injection h with h2
      rw [if_pos (by decide)]
      dsimp only
      rw [if_neg (by decide), h2]
  · rw [ht] at h ⊢
    rw [if_neg (by decide)] at h
    cases hsec : e.secret with
    | none => rw [hsec] at h; cases h
    | some sec =>
      rw [hsec] at h
      injection h with h2
      rw [if_pos (by decide)]
      dsimp only
      rw [if_neg (by decide), h2]
  · rw [ht] at h ⊢
    rw [if_pos (by decide)] at h
    injection h with h2
    rw [if_neg (by decide), if_pos (by decide), if_pos (by decide), h2]

/-- C5: from any armed state with a well-formed pending map, if k + 1 events
for the same secret name n arrive (each overwriting the pending entry for n
and re-arming the timer) and then the timer fires under a live context, the
processed batch holds exactly one entry for n — the last event received —
exactly one fan-out for n is dispatched, matching the last event, and the
loop returns to Idle with the pending map cleared. -/
theorem debounce_coalescing_last_write_wins
    (st : Store) (src excl : String) (p : List (String × SecretEvent))
    (es : List SecretEvent) (eLast : SecretEvent) (n : String)
    (hwf : ∀ q ∈ p, eventKey q.2 = some q.1)
    (_hkeys : ∀ e ∈ es, eventKey e = some n)
    (hlast : eventKey eLast = some n)
    (htype : eLast.eventType = "add" ∨ eLast.eventType = "update" ∨
      eLast.eventType = "delete") :
    runDebounce st ⟨true, p⟩ src excl false
        ((es ++ [eLast]).map DebounceInput.ev ++ [DebounceInput.timerFires]) =
      some (some ⟨false, []⟩,
        (processBatchLoop false st src excl (recordEvents p (es ++ [eLast]))).1,
        (processBatchLoop false st src excl (recordEvents p (es ++ [eLast]))).2.1,
        (processBatchLoop false st src excl (recordEvents p (es ++ [eLast]))).2.2) ∧
    (recordEvents p (es ++ [eLast])).lookup n = some eLast ∧
    ((recordEvents p (es ++ [eLast])).filter (fun q => q.1 == n)).length = 1 ∧
    ((processBatchLoop false st src excl (recordEvents p (es ++ [eLast]))).2.1).filter
      (fun a => a.nameOf == n) = [actionOfEvent eLast n] := by
  have hbatch : recordEvents p (es ++ [eLast]) =
      (recordEvents p es).filter (fun q => q.1 != n) ++ [(n, eLast)] := by
    show (es ++ [eLast]).foldl recordEvent p = _
    rw [List.foldl_append]
    show recordEvent (recordEvents p es) eLast = _
    unfold recordEvent
    rw [hlast]
    rfl
  have hqwf : ∀ q ∈ recordEvents p es, eventKey q.2 = some q.1 := recordEvents_wf es p hwf
  refine ⟨runDebounce_events_then_fire st src excl (es ++ [eLast]) p, ?_, ?_, ?_⟩
  · rw [hbatch]
    apply lookup_append_sentinel
    intro e he
    simpa using List.of_mem_filter he
  · rw [hbatch, List.filter_append]
    have h1 : ((recordEvents p es).filter (fun q => q.1 != n)).filter
        (fun q => q.1 == n) = [] := by
      rw [List.filter_eq_nil_iff]
      intro x hx
      have hne : x.1 ≠ n := by simpa using List.of_mem_filter hx
      simp [hne]
    rw [h1]
    simp
  · rw [hbatch, processBatchLoop_acts src excl _ st, filter_flatten_map,
      List.map_append, List.flatten_append]
    have hleft : ((((recordEvents p es).filter (fun q => q.1 != n)).map
        (fun a => (entryActions a).filter (fun x => x.nameOf == n)))).flatten = [] := by
      rw [List.flatten_eq_nil_iff]
      intro l hl
      rw [List.mem_map] at hl
      obtain ⟨q, hq, rfl⟩ := hl
      rw [List.filter_eq_nil_iff]
      intro a ha
      have hqn : q.1 ≠ n := by simpa using List.of_mem_filter hq
      have hname := entryActions_names q (hqwf q (List.mem_of_mem_filter hq)) a ha
      simp [hname, hqn]
    rw [hleft]
    simp [entryActions_eq_single hlast htype, actionOfEvent_name]

def srcSecC5a : Secret :=
  ⟨"creds", "src", "u5", "1", "t", 1, [], none, none, "Opaque", some [("user", "a")], none⟩

def srcSecC5b : Secret := { srcSecC5a with data := some [("user", "b")] }

def stC5 : Store := ⟨[⟨"src", none⟩, ⟨"ns1", none⟩], [], [], false, false, [], 0⟩

def evC5a : SecretEvent := ⟨"add", some srcSecC5a, "creds"⟩

def evC5b : SecretEvent := ⟨"update", some srcSecC5b, "creds"⟩

/-- Witness for C5: two rapid events for the same secret coalesce to the last
one and a single fan-out. -/
theorem debounce_coalescing_last_write_wins_witness :
    (recordEvents [] ([evC5a] ++ [evC5b])).lookup "creds" = some evC5b ∧
    ((recordEvents [] ([evC5a] ++ [evC5b])).filter (fun q => q.1 == "creds")).length = 1 ∧
    ((processBatchLoop false stC5 "src" "" (recordEvents [] ([evC5a] ++ [evC5b]))).2.1).filter
      (fun a => a.nameOf == "creds") = [actionOfEvent evC5b "creds"] :=
  have h := debounce_coalescing_last_write_wins stC5 "src" "" [] [evC5a] evC5b "creds"
    (by simp) (by decide) (by decide) (Or.inr (Or.inl rfl))
  ⟨h.2.1, h.2.2.1, h.2.2.2⟩

end PushToK8s
